import Mathlib

set_option maxHeartbeats 1000000

/-! Shallow embedding of the DLB TALP shared-memory region registry
(`shmem_talp.c`).  C `int` / `pid_t` / `int64_t` fields are modelled as `Int`;
the fixed-size shared record array as a `List` whose length is the allocation
size; C strings as `List Char`.  Every structural operation in the C code runs
with the cross-process segment lock held, so each operation is modelled as the
sequential function it computes under the lock.  The process-local globals
(`shm_handler`, `shdata`, `max_regions`, `subprocesses_attached`) become the
fields of `TalpState`; `shm_handler` and `shdata` are set and cleared together
in the C module, so a single `shm_handler : Bool` flag records whether both
pointers are non-NULL, and `shdata : ShData` holds the shared payload that the
pointer designates while attached. -/

/-- Modelled from the spec: `DLB_MONITOR_NAME_MAX` is defined in
`apis/dlb_talp.h`, which is not among the sources; the spec only requires a
fixed bounded name length (longer names are truncated, not rejected).  The
concrete value is irrelevant to every claim. -/
def DLB_MONITOR_NAME_MAX : Nat := 128

/-- Modelled from the spec: the discrete result codes of `apis/dlb_errors.h`
(header not among the sources).  The spec's error taxonomy names them:
success, no-update (not a failure), not-attached (`DLB_ERR_NOSHMEM`),
capacity-exhausted (`DLB_ERR_NOMEM`), not-found (`DLB_ERR_NOENT` /
`DLB_ERR_NOPROC`), init-mismatch (`DLB_ERR_INIT`).  In C all `DLB_ERR_*`
values are negative and `DLB_SUCCESS = 0`, `DLB_NOUPDT > 0`; the test
`error < DLB_SUCCESS` is therefore `DlbRet.isError`. -/
inductive DlbRet where
  | Success
  | NoUpdt
  | ErrNoShmem
  | ErrNoMem
  | ErrNoEnt
  | ErrNoProc
  | ErrInit
  deriving DecidableEq, Repr

/-- `error < DLB_SUCCESS` in the C code: exactly the `DLB_ERR_*` codes. -/
def DlbRet.isError : DlbRet → Bool
  | .Success => false
  | .NoUpdt => false
  | _ => true

/-- `talp_region_t`: one record of the shared table.  `name` is a C string of
at most `DLB_MONITOR_NAME_MAX - 1` characters; `mpi_time` / `useful_time` are
`atomic_int_least64_t` counters that the code only loads and stores (relaxed),
so `Int` models them; `pid` is the owner (`NOBODY = 0` marks a free slot);
`avg_cpus` is a C `float` that the code only ever stores and copies verbatim,
never computes with, so an opaque numeric carrier (`Int`) models it. -/
structure TalpRegion where
  name : List Char
  mpi_time : Int
  useful_time : Int
  pid : Int
  avg_cpus : Int
  deriving DecidableEq, Repr

/-- `(const talp_region_t){}`: the all-zero record. -/
def emptyRegion : TalpRegion :=
  { name := [], mpi_time := 0, useful_time := 0, pid := 0, avg_cpus := 0 }

/-- `shdata_t`: the shared segment payload — header plus the flexible record
array.  `talp_region` has the physical length of the allocation (at least the
capacity in every state the module creates). -/
structure ShData where
  initialized : Bool
  max_regions : Int
  num_regions : Int
  talp_region : List TalpRegion
  deriving DecidableEq, Repr

/-- `memset(shared_data, 0, shmem_talp__size())`: the whole payload zeroed,
keeping the physical allocation length. -/
def zeroShData (len : Nat) : ShData :=
  { initialized := false, max_regions := 0, num_regions := 0,
    talp_region := List.replicate len emptyRegion }

/-- The process-local globals of `shmem_talp.c`.  `shm_handler = true` models
both `shm_handler != NULL` and `shdata != NULL` (always equal in the module);
`shdata` is the shared payload the pointer designates; `max_regions` is the
process-local capacity; `subprocesses_attached` the local attach counter. -/
structure TalpState where
  shm_handler : Bool
  shdata : ShData
  max_regions : Int
  subprocesses_attached : Int
  deriving DecidableEq, Repr

/-- The match test of the linear scans:
`talp_region->pid == pid && strncmp(talp_region->name, name, DLB_MONITOR_NAME_MAX-1) == 0`.
For NUL-free strings `strncmp(a, b, n) == 0` is `a.take n = b.take n`. -/
def regionMatch (r : TalpRegion) (pid : Int) (name : List Char) : Bool :=
  r.pid == pid &&
    r.name.take (DLB_MONITOR_NAME_MAX - 1) == name.take (DLB_MONITOR_NAME_MAX - 1)

/-- The linear search loop of `shmem_talp__register` / `shmem_talp__get_region`:
first index `i` (counting from the accumulator) whose record matches. -/
def findRegion (pid : Int) (name : List Char) : List TalpRegion → Nat → Option Nat
  | [], _ => none
  | r :: rs, i => if regionMatch r pid name then some i else findRegion pid name rs (i + 1)

/-- `snprintf(empty_spot->name, DLB_MONITOR_NAME_MAX, "%s", name)`: stores at
most `DLB_MONITOR_NAME_MAX - 1` characters of `name`. -/
def truncName (name : List Char) : List Char :=
  name.take (DLB_MONITOR_NAME_MAX - 1)

/-- `cleanup_shmem(shdata_ptr, pid)`: walk the dense prefix
(`region_id < num_regions`), zero every record owned by `pid`, and remember
whether any other record with a positive owner remains; if none does, zero the
entire payload (`memset(shared_data, 0, shmem_talp__size())`). -/
def cleanup_shmem (sd : ShData) (pid : Int) : ShData :=
  let n := sd.num_regions.toNat
  let walked := sd.talp_region.take n
  let shmem_empty := walked.all (fun r => r.pid == pid || decide (r.pid ≤ 0))
  if shmem_empty then
    zeroShData sd.talp_region.length
  else
    { sd with
      talp_region :=
        (walked.map (fun r => if r.pid == pid then emptyRegion else r))
          ++ sd.talp_region.drop n }

/-- `is_shmem_empty()`: no record of the dense prefix has a non-`NOBODY`
owner. -/
def is_shmem_empty (sd : ShData) : Bool :=
  (sd.talp_region.take sd.num_regions.toNat).all (fun r => r.pid == 0)

/-- `open_shmem(shmem_key, shmem_size_multiplier)`.  On first local attach the
external `shmem_init` hands back the shared payload — freshly zeroed if the
segment did not yet exist, or the existing contents; the parameter `seg`
stands for what it hands back (`mu_get_system_size()` is the external CPU
count, parameter `systemSize`).  Otherwise only the local counter grows. -/
def open_shmem (systemSize mult : Int) (seg : ShData) (s : TalpState) : TalpState :=
  if s.shm_handler then
    { s with subprocesses_attached := s.subprocesses_attached + 1 }
  else
    { shm_handler := true, shdata := seg, max_regions := systemSize * mult,
      subprocesses_attached := 1 }

/-- `close_shmem()`: decrement the local counter; the call that brings it to
zero releases the local mapping (`shm_handler = NULL; shdata = NULL`).  The
external `shmem_finalize(shm_handler, is_shmem_empty)` may then destroy the OS
segment; that collaborator effect is outside this module, so the payload field
keeps its last contents. -/
def close_shmem (s : TalpState) : TalpState :=
  if s.subprocesses_attached - 1 == 0 then
    { s with subprocesses_attached := s.subprocesses_attached - 1, shm_handler := false }
  else
    { s with subprocesses_attached := s.subprocesses_attached - 1 }

/-- `shmem_talp__init(shmem_key, shmem_size_multiplier)`: open, then under the
lock either perform first-writer initialization or compare the stored capacity
with the locally computed one; on `DLB_ERR_INIT` (or any error) the segment is
left untouched and the already-incremented local counter is unwound by
`close_shmem()`. -/
def shmem_talp__init (systemSize mult : Int) (seg : ShData) (s : TalpState) :
    DlbRet × TalpState :=
  let s1 := open_shmem systemSize mult seg s
  let res :=
    if !s1.shdata.initialized then
      (DlbRet.Success,
        { s1.shdata with initialized := true, num_regions := 0,
                         max_regions := s1.max_regions })
    else
      if s1.shdata.max_regions != s1.max_regions then (DlbRet.ErrInit, s1.shdata)
      else (DlbRet.Success, s1.shdata)
  let s2 := { s1 with shdata := res.2 }
  if res.1.isError then (res.1, close_shmem s2) else (res.1, s2)

/-- `shmem_talp_ext__init`: open only; external processes initialize nothing. -/
def shmem_talp_ext__init (systemSize mult : Int) (seg : ShData) (s : TalpState) :
    DlbRet × TalpState :=
  (DlbRet.Success, open_shmem systemSize mult seg s)

/-- `shmem_talp__finalize(pid)`: `DLB_ERR_NOSHMEM` when not attached; otherwise,
under the lock, zero every dense-prefix record owned by `pid` (no emptiness
check and no payload wipe here, unlike `cleanup_shmem`), then `close_shmem()`. -/
def shmem_talp__finalize (s : TalpState) (pid : Int) : DlbRet × TalpState :=
  if !s.shm_handler then (DlbRet.ErrNoShmem, s)
  else
    let n := s.shdata.num_regions.toNat
    let cleared :=
      (s.shdata.talp_region.take n).map (fun r => if r.pid == pid then emptyRegion else r)
        ++ s.shdata.talp_region.drop n
    let s1 := { s with shdata := { s.shdata with talp_region := cleared } }
    (DlbRet.Success, close_shmem s1)

/-- `shmem_talp_ext__finalize()`: guarded against double finalization. -/
def shmem_talp_ext__finalize (s : TalpState) : DlbRet × TalpState :=
  if !s.shm_handler then (DlbRet.ErrNoShmem, s)
  else (DlbRet.Success, close_shmem s)

/-- `shmem_talp__register(pid, avg_cpus, name, &node_shared_id)`: under the
lock, linear scan of the dense prefix for `(pid, name)`; on match return the
existing id with `DLB_NOUPDT`; otherwise append at `num_regions` if below the
local capacity, else `DLB_ERR_NOMEM`.  The returned `Option Int` is the
`node_shared_id` out-parameter (set only on the two successful paths). -/
def shmem_talp__register (s : TalpState) (pid avg_cpus : Int) (name : List Char) :
    DlbRet × Option Int × TalpState :=
  if !s.shm_handler then (DlbRet.ErrNoShmem, none, s)
  else
    let n := s.shdata.num_regions
    match findRegion pid name (s.shdata.talp_region.take n.toNat) 0 with
    | some i => (DlbRet.NoUpdt, some (i : Int), s)
    | none =>
      if n < s.max_regions then
        let newR : TalpRegion :=
          { name := truncName name, mpi_time := 0, useful_time := 0,
            pid := pid, avg_cpus := avg_cpus }
        (DlbRet.Success, some n,
          { s with shdata :=
            { s.shdata with num_regions := n + 1,
                            talp_region := s.shdata.talp_region.set n.toNat newR } })
      else
        (DlbRet.ErrNoMem, none, s)

/-- The dedup-and-bound loop of `shmem_talp__get_pidlist`: walk the records,
stop when the caller's buffer (`max_len`) is full, append each non-`NOBODY`
pid not already present. -/
def pidlistLoop (max_len : Int) : List TalpRegion → List Int → List Int
  | [], acc => acc
  | r :: rs, acc =>
    if (acc.length : Int) < max_len then
      if r.pid != 0 && !(acc.contains r.pid) then pidlistLoop max_len rs (acc ++ [r.pid])
      else pidlistLoop max_len rs acc
    else acc

/-- `shmem_talp__get_pidlist(pidlist, &nelems, max_len)`. -/
def shmem_talp__get_pidlist (s : TalpState) (max_len : Int) : DlbRet × List Int :=
  if !s.shm_handler then (DlbRet.ErrNoShmem, [])
  else
    (DlbRet.Success,
      pidlistLoop max_len (s.shdata.talp_region.take s.shdata.num_regions.toNat) [])

/-- `talp_region_list_t`: the external snapshot type. -/
structure TalpRegionList where
  pid : Int
  region_id : Int
  mpi_time : Int
  useful_time : Int
  avg_cpus : Int
  deriving DecidableEq, Repr

/-- `cmp_region_list`: the `qsort` comparator, `elem1->pid - elem2->pid`. -/
def cmp_region_list (a b : TalpRegionList) : Int :=
  a.pid - b.pid

/-- The snapshot taken of record `r` at index `i`
(`{.pid = ..., .region_id = region_id, .mpi_time = ..., ...}`). -/
def snapshotOf (i : Nat) (r : TalpRegion) : TalpRegionList :=
  { pid := r.pid, region_id := (i : Int), mpi_time := r.mpi_time,
    useful_time := r.useful_time, avg_cpus := r.avg_cpus }

/-- All snapshots the `shmem_talp__get_regionlist` scan would collect with an
unbounded buffer: the dense prefix in index order, keeping every live record
whose name matches. -/
def matchingSnapshots (sd : ShData) (name : List Char) : List TalpRegionList :=
  ((sd.talp_region.take sd.num_regions.toNat).enum).filterMap
    (fun p =>
      if p.2.pid != 0 &&
          (p.2.name.take (DLB_MONITOR_NAME_MAX - 1) == name.take (DLB_MONITOR_NAME_MAX - 1))
      then some (snapshotOf p.1 p.2) else none)

/-- The collection loop of `shmem_talp__get_regionlist`: scan the dense prefix
in index order, snapshot every live record whose name matches, and stop once
`max_len` snapshots have been written — i.e. the first `max_len` elements of
the index-ordered matching snapshots. -/
def collectRegionList (sd : ShData) (max_len : Int) (name : List Char) :
    List TalpRegionList :=
  (matchingSnapshots sd name).take max_len.toNat

/-- `qsort(region_list, *nelems, sizeof(talp_region_list_t), cmp_region_list)`:
orders by the comparator (ascending pid).  `qsort` leaves the order of equal
keys unspecified; insertion sort realizes one admissible outcome and agrees
with every admissible outcome whenever the pids of the collected entries are
distinct — which they are in every reachable table, since at most one record
exists per `(pid, name)` pair. -/
def sortRegionList (l : List TalpRegionList) : List TalpRegionList :=
  l.insertionSort (fun a b => cmp_region_list a b ≤ 0)

/-- `shmem_talp__get_regionlist(region_list, &nelems, max_len, name)`. -/
def shmem_talp__get_regionlist (s : TalpState) (max_len : Int) (name : List Char) :
    DlbRet × List TalpRegionList :=
  if !s.shm_handler then (DlbRet.ErrNoShmem, [])
  else (DlbRet.Success, sortRegionList (collectRegionList s.shdata max_len name))

/-- The record the counter-access functions address:
`&shdata->talp_region[region_id]` (the guards of the callers keep the index
inside the allocation in every state the module creates). -/
def recordAt (sd : ShData) (k : Nat) : TalpRegion :=
  sd.talp_region.getD k emptyRegion

/-- `shmem_talp__get_times(region_id, &mpi_time, &useful_time)`: the guard
cascade, then relaxed loads of both counters.  Pure read — it never writes
shared memory. -/
def shmem_talp__get_times (s : TalpState) (region_id : Int) :
    DlbRet × Option (Int × Int) :=
  if !s.shm_handler then (DlbRet.ErrNoShmem, none)
  else if region_id ≥ s.max_regions then (DlbRet.ErrNoMem, none)
  else if region_id ≥ s.shdata.num_regions then (DlbRet.ErrNoEnt, none)
  else if region_id < 0 then (DlbRet.ErrNoEnt, none)
  else
    let r := recordAt s.shdata region_id.toNat
    if r.pid == 0 then (DlbRet.ErrNoEnt, none)
    else (DlbRet.Success, some (r.mpi_time, r.useful_time))

/-- `shmem_talp__set_times(region_id, mpi_time, useful_time)`: same guard
cascade, then relaxed stores of both counters. -/
def shmem_talp__set_times (s : TalpState) (region_id m u : Int) :
    DlbRet × TalpState :=
  if !s.shm_handler then (DlbRet.ErrNoShmem, s)
  else if region_id ≥ s.max_regions then (DlbRet.ErrNoMem, s)
  else if region_id ≥ s.shdata.num_regions then (DlbRet.ErrNoEnt, s)
  else if region_id < 0 then (DlbRet.ErrNoEnt, s)
  else
    let r := recordAt s.shdata region_id.toNat
    if r.pid == 0 then (DlbRet.ErrNoEnt, s)
    else
      let r2 : TalpRegion := { r with mpi_time := m, useful_time := u }
      (DlbRet.Success,
        { s with shdata :=
          { s.shdata with
            talp_region := s.shdata.talp_region.set region_id.toNat r2 } })

/-- `shmem_talp__set_avg_cpus(region_id, avg_cpus)`: same guard cascade, then a
plain store of `avg_cpus`. -/
def shmem_talp__set_avg_cpus (s : TalpState) (region_id v : Int) :
    DlbRet × TalpState :=
  if !s.shm_handler then (DlbRet.ErrNoShmem, s)
  else if region_id ≥ s.max_regions then (DlbRet.ErrNoMem, s)
  else if region_id ≥ s.shdata.num_regions then (DlbRet.ErrNoEnt, s)
  else if region_id < 0 then (DlbRet.ErrNoEnt, s)
  else
    let r := recordAt s.shdata region_id.toNat
    if r.pid == 0 then (DlbRet.ErrNoEnt, s)
    else
      let r2 : TalpRegion := { r with avg_cpus := v }
      (DlbRet.Success,
        { s with shdata :=
          { s.shdata with
            talp_region := s.shdata.talp_region.set region_id.toNat r2 } })

/-- `shmem_talp__exists()`. -/
def shmem_talp__exists (s : TalpState) : Bool :=
  s.shm_handler

/-- `shmem_talp__initialized()`: `shdata && shdata->initialized` — the pointer
is checked before the dereference, so the function is total. -/
def shmem_talp__initialized (s : TalpState) : Bool :=
  s.shm_handler && s.shdata.initialized

/-- `shmem_talp__version()`. -/
def shmem_talp__version : Int := 4

/-- `shmem_talp__get_max_regions()`: reads only the local global. -/
def shmem_talp__get_max_regions (s : TalpState) : Int :=
  s.max_regions

/-- `shmem_talp__get_num_regions()`: `return shdata->num_regions;` — the
dereference is unconditional, with no `shm_handler`/`shdata` guard.  The NULL
dereference that happens when no segment is attached is modelled as `none`;
there is no path that returns a `DlbRet` error code. -/
def shmem_talp__get_num_regions (s : TalpState) : Option Int :=
  if s.shm_handler then some s.shdata.num_regions else none

/-- Well-formedness of an attached state, established by the module itself:
the dense prefix is a genuine prefix of the allocation (`num_regions` is
non-negative and the allocation holds at least `max_regions` records). -/
def WfState (s : TalpState) : Prop :=
  0 ≤ s.shdata.num_regions ∧ s.max_regions ≤ (s.shdata.talp_region.length : Int)

/-! ### Test fixtures (concrete states used by witnesses and counterexamples) -/

/-- An attached, freshly initialized table of capacity 2 (one local attacher). -/
def segEmpty2 : ShData :=
  { initialized := true, max_regions := 2, num_regions := 0,
    talp_region := List.replicate 2 emptyRegion }

def stEmpty2 : TalpState :=
  { shm_handler := true, shdata := segEmpty2, max_regions := 2,
    subprocesses_attached := 1 }

/-- The record produced by `register(pid = 5, avg_cpus = 1, "R1")`. -/
def regR1 : TalpRegion :=
  { name := ['R', '1'], mpi_time := 0, useful_time := 0, pid := 5, avg_cpus := 1 }

/-- `stEmpty2` after registering `(5, "R1")` at id 0. -/
def segOne : ShData :=
  { initialized := true, max_regions := 2, num_regions := 1,
    talp_region := [regR1, emptyRegion] }

def stOne : TalpState :=
  { shm_handler := true, shdata := segOne, max_regions := 2,
    subprocesses_attached := 1 }

/-- Like `stOne` but with two local attachers, so a `close` keeps it attached. -/
def stOneB : TalpState :=
  { shm_handler := true, shdata := segOne, max_regions := 2,
    subprocesses_attached := 2 }

/-- A table whose dense prefix holds one vacated slot (`owner_pid = 0`). -/
def segVac : ShData :=
  { initialized := true, max_regions := 2, num_regions := 1,
    talp_region := [emptyRegion, emptyRegion] }

def stVac : TalpState :=
  { shm_handler := true, shdata := segVac, max_regions := 2,
    subprocesses_attached := 1 }

/-- A detached local state (`shm_handler == NULL`). -/
def stDet : TalpState :=
  { shm_handler := false, shdata := segVac, max_regions := 2,
    subprocesses_attached := 0 }

/-- A full table: capacity 2, both slots owned. -/
def segFull : ShData :=
  { initialized := true, max_regions := 2, num_regions := 2,
    talp_region :=
      [{ name := ['A'], mpi_time := 0, useful_time := 0, pid := 1, avg_cpus := 0 },
       { name := ['A'], mpi_time := 0, useful_time := 0, pid := 2, avg_cpus := 0 }] }

def stFull : TalpState :=
  { shm_handler := true, shdata := segFull, max_regions := 2,
    subprocesses_attached := 1 }

/-- An already-initialized segment of stored capacity 4, for the init-mismatch
scenario. -/
def segInit4 : ShData :=
  { initialized := true, max_regions := 4, num_regions := 0,
    talp_region := List.replicate 4 emptyRegion }

/-- A never-attached local state. -/
def stFresh : TalpState :=
  { shm_handler := false, shdata := zeroShData 0, max_regions := 0,
    subprocesses_attached := 0 }

/-- Capacity-3 table holding `(30,"X")`, `(10,"X")`, `(20,"X")` in registration
order. -/
def segXYZ : ShData :=
  { initialized := true, max_regions := 3, num_regions := 3,
    talp_region :=
      [{ name := ['X'], mpi_time := 7, useful_time := 8, pid := 30, avg_cpus := 0 },
       { name := ['X'], mpi_time := 1, useful_time := 2, pid := 10, avg_cpus := 0 },
       { name := ['X'], mpi_time := 3, useful_time := 4, pid := 20, avg_cpus := 0 }] }

def stXYZ : TalpState :=
  { shm_handler := true, shdata := segXYZ, max_regions := 3,
    subprocesses_attached := 1 }

/-! ### Helper lemmas on lists -/

theorem getD_set_self (l : List TalpRegion) (n : Nat) (x d : TalpRegion)
    (h : n < l.length) : (l.set n x).getD n d = x := by
  induction l generalizing n with
  | nil => simp at h
  | cons a as ih =>
    cases n with
    | zero => simp [List.getD]
    | succ m =>
      simp only [List.set, List.getD_cons_succ]
      exact ih m (by simpa using h)

theorem getD_set_ne (l : List TalpRegion) (n m : Nat) (x d : TalpRegion)
    (h : n ≠ m) : (l.set n x).getD m d = l.getD m d := by
  induction l generalizing n m with
  | nil => simp
  | cons a as ih =>
    cases n with
    | zero =>
      cases m with
      | zero => exact absurd rfl h
      | succ k => simp [List.getD]
    | succ j =>
      cases m with
      | zero => simp [List.getD]
      | succ k =>
        simp only [List.set, List.getD_cons_succ]
        exact ih j k (fun hc => h (by simp [hc]))

theorem take_set_succ (l : List TalpRegion) (n : Nat) (x : TalpRegion)
    (h : n < l.length) : (l.set n x).take (n + 1) = l.take n ++ [x] := by
  induction l generalizing n with
  | nil => simp at h
  | cons a as ih =>
    cases n with
    | zero => simp
    | succ m =>
      simp only [List.set, List.take_succ_cons, List.cons_append]
      rw [ih m (by simpa using h)]

theorem findRegion_append_single (pid : Int) (name : List Char)
    (l : List TalpRegion) (x : TalpRegion) (j : Nat)
    (hl : findRegion pid name l j = none) (hx : regionMatch x pid name = true) :
    findRegion pid name (l ++ [x]) j = some (j + l.length) := by
  induction l generalizing j with
  | nil => simp [findRegion, hx]
  | cons a as ih =>
    rw [List.cons_append]
    simp only [findRegion] at hl ⊢
    by_cases ha : regionMatch a pid name = true
    · rw [if_pos ha] at hl
      simp at hl
    · rw [if_neg ha] at hl
      rw [if_neg ha, ih (j + 1) hl]
      congr 1
      simp only [List.length_cons]
      omega

theorem findRegion_lt (pid : Int) (name : List Char) (l : List TalpRegion)
    (j k : Nat) (h : findRegion pid name l j = some k) : k < j + l.length := by
  induction l generalizing j with
  | nil => simp [findRegion] at h
  | cons a as ih =>
    simp only [findRegion] at h
    by_cases ha : regionMatch a pid name = true
    · rw [if_pos ha] at h
      simp only [Option.some.injEq] at h
      simp [← h]
    · rw [if_neg ha] at h
      have := ih (j + 1) h
      simp only [List.length_cons]
      omega

theorem map_eq_self_of_id (l : List TalpRegion) (f : TalpRegion → TalpRegion)
    (h : ∀ r ∈ l, f r = r) : l.map f = l := by
  induction l with
  | nil => rfl
  | cons a as ih =>
    simp only [List.map_cons, h a (by simp)]
    rw [ih (fun r hr => h r (by simp [hr]))]

instance : IsTotal TalpRegionList (fun a b => cmp_region_list a b ≤ 0) :=
  ⟨fun a b => by unfold cmp_region_list; omega⟩

instance : IsTrans TalpRegionList (fun a b => cmp_region_list a b ≤ 0) :=
  ⟨fun a b c h1 h2 => by unfold cmp_region_list at h1 h2 ⊢; omega⟩

/-! ### Claims -/

/-- C3: counter round-trip.  For every previously-registered id whose record
has not been cleared (segment attached, `0 ≤ id < num_regions`,
`id < max_regions`, owner not `NOBODY`), `set_times(id, m, u)` succeeds and a
following `get_times(id)` succeeds returning exactly `(m, u)`, for all 64-bit
signed values `m`, `u` (the counters are stored and loaded verbatim, so
the statement holds for all integers, in particular the 64-bit range). -/
theorem set_get_times_roundtrip (s : TalpState) (id m u : Int)
    (hwf : WfState s)
    (hat : s.shm_handler = true)
    (h0 : 0 ≤ id) (hnum : id < s.shdata.num_regions) (hmax : id < s.max_regions)
    (hpid : (recordAt s.shdata id.toNat).pid ≠ 0) :
    (shmem_talp__set_times s id m u).1 = DlbRet.Success ∧
    shmem_talp__get_times (shmem_talp__set_times s id m u).2 id =
      (DlbRet.Success, some (m, u)) := by
  have h1 : ¬(id ≥ s.max_regions) := not_le.mpr hmax
  have h2 : ¬(id ≥ s.shdata.num_regions) := not_le.mpr hnum
  have h3 : ¬(id < 0) := not_lt.mpr h0
  have hlen : id.toNat < s.shdata.talp_region.length := by
    rcases hwf with ⟨hw1, hw2⟩
    omega
  have hbeq : ((recordAt s.shdata id.toNat).pid == 0) = false := by
    simpa using hpid
  constructor
  · simp [shmem_talp__set_times, hat, h1, h2, h3, hbeq]
  · simp only [shmem_talp__set_times, hat, Bool.not_true, Bool.false_eq_true, if_false,
      h1, h2, h3, hbeq, if_neg, ite_false]
    simp only [shmem_talp__get_times, hat, Bool.not_true, Bool.false_eq_true, if_false]
    rw [if_neg h1, if_neg h2, if_neg h3]
    unfold recordAt
    rw [getD_set_self _ _ _ _ hlen]
    unfold recordAt at hbeq
    simp only [List.getD_eq_getElem?_getD] at hbeq
    simp [hbeq]

/-- Witness for C3 at the concrete one-record table. -/
theorem set_get_times_roundtrip_witness :
    (shmem_talp__set_times stOne 0 100 200).1 = DlbRet.Success ∧
    shmem_talp__get_times (shmem_talp__set_times stOne 0 100 200).2 0 =
      (DlbRet.Success, some (100, 200)) :=
  set_get_times_roundtrip stOne 0 100 200 ⟨by decide, by decide⟩ rfl
    (by decide) (by decide) (by decide) (by decide)

/-- C10: `shmem_talp__get_num_regions` has no not-attached guard — it
dereferences the shared-data pointer unconditionally, so when no segment is
attached the call is a NULL dereference (modelled as `none`: no result at all,
in particular no `DLB_ERR_NOSHMEM` code, which its `Option Int` signature
cannot even express); only under the precondition that a segment is attached
is it total, returning the live-record count.  `shmem_talp__initialized`, by
contrast, checks the pointer before dereferencing and is total: it returns
`false` when detached. -/
theorem get_num_regions_unguarded (s : TalpState) :
    (s.shm_handler = false →
      shmem_talp__get_num_regions s = none ∧ shmem_talp__initialized s = false) ∧
    (s.shm_handler = true →
      shmem_talp__get_num_regions s = some s.shdata.num_regions ∧
      shmem_talp__initialized s = s.shdata.initialized) := by
  constructor <;> intro h <;>
    simp [shmem_talp__get_num_regions, shmem_talp__initialized, h]

/-- Witness for C10 at a detached and at an attached state. -/
theorem get_num_regions_unguarded_witness :
    (shmem_talp__get_num_regions stDet = none ∧
     shmem_talp__initialized stDet = false) ∧
    (shmem_talp__get_num_regions stOne = some 1 ∧
     shmem_talp__initialized stOne = true) :=
  ⟨(get_num_regions_unguarded stDet).1 rfl,
   (get_num_regions_unguarded stOne).2 rfl⟩

/-- C8: attach-time capacity mismatch.  Starting detached, `init` against an
already-initialized segment whose stored capacity differs from the locally
computed `systemSize * mult` returns the fatal `DLB_ERR_INIT`, leaves the
segment payload exactly as it was (flag, capacity, size and records untouched),
and compensates the attach performed at the start of the call: the local
counter, incremented to 1 by `open_shmem`, is decremented back to 0 by the
recovery `close_shmem`, so the process ends detached with no phantom
attachment. -/
theorem init_mismatch_recovery (systemSize mult : Int) (seg : ShData)
    (s : TalpState)
    (hdet : s.shm_handler = false)
    (hini : seg.initialized = true)
    (hmism : seg.max_regions ≠ systemSize * mult) :
    shmem_talp__init systemSize mult seg s =
      (DlbRet.ErrInit,
       { shm_handler := false, shdata := seg, max_regions := systemSize * mult,
         subprocesses_attached := 0 }) := by
  simp [shmem_talp__init, open_shmem, close_shmem, hdet, hini, hmism,
    DlbRet.isError]

/-- Witness for C8: local capacity `2 * 1 = 2` against stored capacity 4. -/
theorem init_mismatch_recovery_witness :
    shmem_talp__init 2 1 segInit4 stFresh =
      (DlbRet.ErrInit,
       { shm_handler := false, shdata := segInit4, max_regions := 2,
         subprocesses_attached := 0 }) :=
  init_mismatch_recovery 2 1 segInit4 stFresh rfl rfl (by decide)

/-- C4 counterexample: the four precondition failures of the counter-access
layer do not each produce their own distinct code.  In the concrete attached
state `stVac` (capacity 2, size 1, slot 0 vacated), `get_times` reports the
same `DLB_ERR_NOENT` for a never-allocated id (`1 ≥ size`), for a vacated
slot's id (`0`, whose `owner_pid == 0`), and for a negative id (`-1`, which is
outside `[0, capacity)` yet does not get the capacity code `DLB_ERR_NOMEM`
that `id ≥ capacity` gets). -/
theorem counter_errors_not_distinct_counterexample :
    (shmem_talp__get_times stVac 1).1 = DlbRet.ErrNoEnt ∧
    (shmem_talp__get_times stVac 0).1 = DlbRet.ErrNoEnt ∧
    (shmem_talp__get_times stVac (-1)).1 = DlbRet.ErrNoEnt ∧
    (shmem_talp__get_times stVac 2).1 = DlbRet.ErrNoMem := by
  decide

/-- C4 amended: the exact failure mapping of `get_times`, `set_times` and
`set_avg_cpus`.  The guards run in order before any access to shared memory:
not-attached reports `DLB_ERR_NOSHMEM`; `region_id ≥ capacity` reports
`DLB_ERR_NOMEM`; `region_id ≥ size`, `region_id < 0` and a vacated slot
(`owner_pid == 0`) all report the one not-found code `DLB_ERR_NOENT` (so only
three distinct codes arise, not four); and on every failure the state is
returned unchanged — no shared-memory field is modified. -/
theorem counter_error_mapping (s : TalpState) (id m u v : Int) :
    (s.shm_handler = false →
      shmem_talp__get_times s id = (DlbRet.ErrNoShmem, none) ∧
      shmem_talp__set_times s id m u = (DlbRet.ErrNoShmem, s) ∧
      shmem_talp__set_avg_cpus s id v = (DlbRet.ErrNoShmem, s)) ∧
    (s.shm_handler = true → s.max_regions ≤ id →
      shmem_talp__get_times s id = (DlbRet.ErrNoMem, none) ∧
      shmem_talp__set_times s id m u = (DlbRet.ErrNoMem, s) ∧
      shmem_talp__set_avg_cpus s id v = (DlbRet.ErrNoMem, s)) ∧
    (s.shm_handler = true → id < s.max_regions → s.shdata.num_regions ≤ id →
      shmem_talp__get_times s id = (DlbRet.ErrNoEnt, none) ∧
      shmem_talp__set_times s id m u = (DlbRet.ErrNoEnt, s) ∧
      shmem_talp__set_avg_cpus s id v = (DlbRet.ErrNoEnt, s)) ∧
    (s.shm_handler = true → id < s.max_regions → id < s.shdata.num_regions →
      id < 0 →
      shmem_talp__get_times s id = (DlbRet.ErrNoEnt, none) ∧
      shmem_talp__set_times s id m u = (DlbRet.ErrNoEnt, s) ∧
      shmem_talp__set_avg_cpus s id v = (DlbRet.ErrNoEnt, s)) ∧
    (s.shm_handler = true → id < s.max_regions → id < s.shdata.num_regions →
      0 ≤ id → (recordAt s.shdata id.toNat).pid = 0 →
      shmem_talp__get_times s id = (DlbRet.ErrNoEnt, none) ∧
      shmem_talp__set_times s id m u = (DlbRet.ErrNoEnt, s) ∧
      shmem_talp__set_avg_cpus s id v = (DlbRet.ErrNoEnt, s)) := by
  refine ⟨fun h => ?_, fun h h1 => ?_, fun h h1 h2 => ?_,
    fun h h1 h2 h3 => ?_, fun h h1 h2 h3 h4 => ?_⟩
  · simp [shmem_talp__get_times, shmem_talp__set_times, shmem_talp__set_avg_cpus, h]
  · simp [shmem_talp__get_times, shmem_talp__set_times, shmem_talp__set_avg_cpus,
      h, h1]
  · have hn1 : ¬(id ≥ s.max_regions) := not_le.mpr h1
    simp [shmem_talp__get_times, shmem_talp__set_times, shmem_talp__set_avg_cpus,
      h, hn1, h2]
  · have hn1 : ¬(id ≥ s.max_regions) := not_le.mpr h1
    have hn2 : ¬(id ≥ s.shdata.num_regions) := not_le.mpr h2
    simp [shmem_talp__get_times, shmem_talp__set_times, shmem_talp__set_avg_cpus,
      h, hn1, hn2, h3]
  · have hn1 : ¬(id ≥ s.max_regions) := not_le.mpr h1
    have hn2 : ¬(id ≥ s.shdata.num_regions) := not_le.mpr h2
    have hn3 : ¬(id < 0) := not_lt.mpr h3
    simp [shmem_talp__get_times, shmem_talp__set_times, shmem_talp__set_avg_cpus,
      h, hn1, hn2, hn3, h4]

/-- Witness for C4's amended theorem: the detached case and the vacated-slot
case at concrete inputs. -/
theorem counter_error_mapping_witness :
    (shmem_talp__get_times stDet 0 = (DlbRet.ErrNoShmem, none) ∧
     shmem_talp__set_times stDet 0 7 8 = (DlbRet.ErrNoShmem, stDet) ∧
     shmem_talp__set_avg_cpus stDet 0 9 = (DlbRet.ErrNoShmem, stDet)) ∧
    (shmem_talp__get_times stVac 0 = (DlbRet.ErrNoEnt, none) ∧
     shmem_talp__set_times stVac 0 7 8 = (DlbRet.ErrNoEnt, stVac) ∧
     shmem_talp__set_avg_cpus stVac 0 9 = (DlbRet.ErrNoEnt, stVac)) :=
  ⟨(counter_error_mapping stDet 0 7 8 9).1 rfl,
   (counter_error_mapping stVac 0 7 8 9).2.2.2.2 rfl (by decide) (by decide)
     (by decide) (by decide)⟩

/-- C1: idempotent registration.  If a registration of `(pid, name)` succeeds
returning id `i` and updated state `s1`, then every subsequent registration of
the same pair (with any `avg_cpus`) returns the same id `i`, reports the
no-update status `DLB_NOUPDT` (not success), and returns the state unchanged —
in particular `size` is unchanged; and since the state is a fixpoint, iterating
the call any number of times keeps returning the same answer. -/
theorem register_idempotent (s s1 : TalpState) (pid a1 a2 i : Int)
    (name : List Char)
    (hwf : WfState s)
    (hreg : shmem_talp__register s pid a1 name = (DlbRet.Success, some i, s1)) :
    shmem_talp__register s1 pid a2 name = (DlbRet.NoUpdt, some i, s1) ∧
    (∀ k : Nat,
      Nat.iterate (fun st => (shmem_talp__register st pid a2 name).2.2) k s1 = s1) := by
  have hmain : shmem_talp__register s1 pid a2 name = (DlbRet.NoUpdt, some i, s1) := by
    by_cases hat : s.shm_handler = true
    case neg =>
      simp only [Bool.not_eq_true] at hat
      simp [shmem_talp__register, hat] at hreg
    case pos =>
    rcases hfe : findRegion pid name
        (s.shdata.talp_region.take s.shdata.num_regions.toNat) 0 with _ | j
    case some =>
      simp [shmem_talp__register, hat, hfe] at hreg
    case none =>
    by_cases hlt : s.shdata.num_regions < s.max_regions
    case neg =>
      simp [shmem_talp__register, hat, hfe, hlt] at hreg
    case pos =>
    simp only [shmem_talp__register, hat, Bool.not_true, Bool.false_eq_true,
      if_false, hfe, hlt, if_true, Prod.mk.injEq, Option.some.injEq,
      true_and] at hreg
    obtain ⟨hi, hs1⟩ := hreg
    have hn0 : 0 ≤ s.shdata.num_regions := hwf.1
    have hlen : s.shdata.num_regions.toNat < s.shdata.talp_region.length := by
      rcases hwf with ⟨hw1, hw2⟩
      omega
    have htn : (s.shdata.num_regions + 1).toNat = s.shdata.num_regions.toNat + 1 := by
      omega
    have hmatch : regionMatch
        ({ name := truncName name, mpi_time := 0, useful_time := 0,
           pid := pid, avg_cpus := a2 } : TalpRegion) pid name = true := by
      simp [regionMatch, truncName, List.take_take]
    have hmatch1 : regionMatch
        ({ name := truncName name, mpi_time := 0, useful_time := 0,
           pid := pid, avg_cpus := a1 } : TalpRegion) pid name = true := by
      simp [regionMatch, truncName, List.take_take]
    have htake := take_set_succ s.shdata.talp_region s.shdata.num_regions.toNat
      ({ name := truncName name, mpi_time := 0, useful_time := 0,
         pid := pid, avg_cpus := a1 } : TalpRegion) hlen
    have hfind2 := findRegion_append_single pid name
      (s.shdata.talp_region.take s.shdata.num_regions.toNat)
      ({ name := truncName name, mpi_time := 0, useful_time := 0,
         pid := pid, avg_cpus := a1 } : TalpRegion) 0 hfe hmatch1
    have hlen2 : (s.shdata.talp_region.take s.shdata.num_regions.toNat).length
        = s.shdata.num_regions.toNat := by
      simp [List.length_take, min_eq_left (le_of_lt hlen)]
    rw [← hs1]
    simp only [shmem_talp__register, hat, Bool.not_true, Bool.false_eq_true,
      if_false, htn, htake, hfind2, hlen2]
    simp only [Nat.zero_add, hi]
    rw [Int.toNat_of_nonneg (hi ▸ hn0)]
  refine ⟨hmain, fun k => ?_⟩
  induction k with
  | zero => rfl
  | succ k ih =>
    rw [Function.iterate_succ_apply', ih]
    show (shmem_talp__register s1 pid a2 name).2.2 = s1
    rw [hmain]

/-- Witness for C1: registering `(5, "R1")` in the empty capacity-2 table
yields id 0 and state `stOne`; the repeated call reports no-update with the
same id and fixpoint state (instantiated at three iterations). -/
theorem register_idempotent_witness :
    shmem_talp__register stOne 5 2 (['R', '1']) = (DlbRet.NoUpdt, some 0, stOne) ∧
    Nat.iterate (fun st => (shmem_talp__register st 5 2 (['R', '1'])).2.2) 3 stOne
      = stOne :=
  ⟨(register_idempotent stEmpty2 stOne 5 1 2 0 (['R', '1'])
      ⟨by decide, by decide⟩ (by decide)).1,
   (register_idempotent stEmpty2 stOne 5 1 2 0 (['R', '1'])
      ⟨by decide, by decide⟩ (by decide)).2 3⟩

/-- C2: the capacity bound is enforced atomically.  Whenever `size == capacity`
(the local capacity the registration check uses) and the `(pid, name)` pair is
not already registered (the linear scan finds no match), `register` returns
the capacity-exhausted `DLB_ERR_NOMEM`, sets no id, and returns the state
completely unchanged; and, concretely, registering `capacity + 1 = 3` distinct
pairs into the empty capacity-2 table succeeds on the first two calls and
fails exactly on the third, which mutates nothing. -/
theorem register_capacity_exhausted (s : TalpState) (pid a : Int)
    (name : List Char)
    (hat : s.shm_handler = true)
    (hfull : s.shdata.num_regions = s.max_regions)
    (habsent : findRegion pid name
      (s.shdata.talp_region.take s.shdata.num_regions.toNat) 0 = none) :
    shmem_talp__register s pid a name = (DlbRet.ErrNoMem, none, s) ∧
    ((shmem_talp__register stEmpty2 1 0 (['A'])).1 = DlbRet.Success ∧
     (shmem_talp__register (shmem_talp__register stEmpty2 1 0 (['A'])).2.2
        2 0 (['A'])).1 = DlbRet.Success ∧
     shmem_talp__register
        (shmem_talp__register (shmem_talp__register stEmpty2 1 0 (['A'])).2.2
          2 0 (['A'])).2.2 3 0 (['A']) =
       (DlbRet.ErrNoMem, none,
        (shmem_talp__register (shmem_talp__register stEmpty2 1 0 (['A'])).2.2
          2 0 (['A'])).2.2)) := by
  constructor
  · have hnlt : ¬(s.shdata.num_regions < s.max_regions) := by omega
    simp [shmem_talp__register, hat, habsent, hnlt]
  · refine ⟨by decide, by decide, by decide⟩

/-- Witness for C2 at the full capacity-2 table and a fresh pair. -/
theorem register_capacity_exhausted_witness :
    shmem_talp__register stFull 9 0 (['B']) = (DlbRet.ErrNoMem, none, stFull) :=
  (register_capacity_exhausted stFull 9 0 (['B']) rfl (by decide) (by decide)).1

theorem recordAt_zeroShData (len i : Nat) :
    recordAt (zeroShData len) i = emptyRegion := by
  simp only [recordAt, zeroShData, List.getD_eq_getElem?_getD, List.getElem?_replicate]
  split <;> rfl

theorem cleared_getElem (l : List TalpRegion) (n i : Nat)
    (f : TalpRegion → TalpRegion) (hn : n ≤ l.length) :
    ((l.take n).map f ++ l.drop n)[i]? =
      if i < n then l[i]?.map f else l[i]? := by
  have hlt : ((l.take n).map f).length = n := by
    simp [List.length_map, List.length_take]
    omega
  by_cases h : i < n
  · rw [if_pos h, List.getElem?_append_left (by rw [hlt]; exact h)]
    rw [List.getElem?_map, List.getElem?_take]
    rw [if_pos h]
  · rw [if_neg h, List.getElem?_append_right (by rw [hlt]; omega)]
    rw [hlt, List.getElem?_drop]
    congr 1
    omega

/-- C5: crash cleanup.  `cleanup_shmem(shdata, dead_pid)` zeroes every
dense-prefix record owned by the dead pid; if afterwards no record anywhere in
the table has a positive owner pid, the entire segment payload is zeroed
(initialized flag, capacity and size included); records not owned by the dead
pid are untouched when no wipe happens; a pid owning zero records while other
owners remain makes the call a no-op; and, concretely, after cleanup of pid 5
— the only registered pid of `stOne` — `get_pidlist` returns zero entries and
the segment reports not-initialized. -/
theorem cleanup_shmem_spec (sd : ShData) (pid : Int)
    (hn : sd.num_regions.toNat ≤ sd.talp_region.length) :
    (∀ i : Nat, i < sd.num_regions.toNat → (recordAt sd i).pid = pid →
      recordAt (cleanup_shmem sd pid) i = emptyRegion) ∧
    ((∀ r ∈ (sd.talp_region.take sd.num_regions.toNat).map
        (fun r => if r.pid == pid then emptyRegion else r) ++
        sd.talp_region.drop sd.num_regions.toNat, r.pid ≤ 0) →
      cleanup_shmem sd pid = zeroShData sd.talp_region.length) ∧
    (∀ i : Nat, i < sd.num_regions.toNat → (recordAt sd i).pid ≠ pid →
      cleanup_shmem sd pid = zeroShData sd.talp_region.length ∨
      recordAt (cleanup_shmem sd pid) i = recordAt sd i) ∧
    ((∀ r ∈ sd.talp_region.take sd.num_regions.toNat, r.pid ≠ pid) →
      cleanup_shmem sd pid = zeroShData sd.talp_region.length ∨
      cleanup_shmem sd pid = sd) ∧
    (shmem_talp__get_pidlist
        ({ stOne with shdata := cleanup_shmem stOne.shdata 5 }) 16
      = (DlbRet.Success, []) ∧
     shmem_talp__initialized
        ({ stOne with shdata := cleanup_shmem stOne.shdata 5 }) = false) := by
  refine ⟨?_, ?_, ?_, ?_, by decide, by decide⟩
  · intro i hi hpid
    by_cases hemp : ((sd.talp_region.take sd.num_regions.toNat).all
        (fun r => r.pid == pid || decide (r.pid ≤ 0))) = true
    · unfold cleanup_shmem
      rw [if_pos hemp]
      exact recordAt_zeroShData _ _
    · unfold cleanup_shmem
      rw [if_neg hemp]
      have hil : i < sd.talp_region.length := lt_of_lt_of_le hi hn
      simp only [recordAt, List.getD_eq_getElem?_getD]
      rw [cleared_getElem _ _ _ _ hn, if_pos hi,
        List.getElem?_eq_getElem hil]
      have heq0 : (recordAt sd i).pid = sd.talp_region[i].pid := by
        simp [recordAt, List.getD_eq_getElem?_getD, List.getElem?_eq_getElem hil]
      rw [heq0] at hpid
      simp [hpid]
  · intro hall
    unfold cleanup_shmem
    rw [if_pos ?hp]
    case hp =>
      rw [List.all_eq_true]
      intro r hr
      by_cases hrp : r.pid == pid
      · simp [hrp]
      · have hf : (if r.pid == pid then emptyRegion else r) = r := by
          rw [if_neg (by simp at hrp ⊢; exact hrp)]
        have hmem : r ∈ (sd.talp_region.take sd.num_regions.toNat).map
            (fun r => if r.pid == pid then emptyRegion else r) ++
            sd.talp_region.drop sd.num_regions.toNat := by
          apply List.mem_append_left
          rw [← hf]
          exact List.mem_map_of_mem _ hr
        have := hall r hmem
        simp [hrp, this]
  · intro i hi hpid
    by_cases hemp : ((sd.talp_region.take sd.num_regions.toNat).all
        (fun r => r.pid == pid || decide (r.pid ≤ 0))) = true
    · left
      unfold cleanup_shmem
      rw [if_pos hemp]
    · right
      unfold cleanup_shmem
      rw [if_neg hemp]
      have hil : i < sd.talp_region.length := lt_of_lt_of_le hi hn
      simp only [recordAt, List.getD_eq_getElem?_getD]
      rw [cleared_getElem _ _ _ _ hn, if_pos hi,
        List.getElem?_eq_getElem hil]
      have heq : (recordAt sd i).pid = sd.talp_region[i].pid := by
        simp [recordAt, List.getD_eq_getElem?_getD, List.getElem?_eq_getElem hil]
      rw [heq] at hpid
      have hb : (sd.talp_region[i].pid == pid) = false := by
        simpa using hpid
      simp [hb]
      exact fun hc => absurd hc hpid
  · intro hnone
    by_cases hemp : ((sd.talp_region.take sd.num_regions.toNat).all
        (fun r => r.pid == pid || decide (r.pid ≤ 0))) = true
    · left
      unfold cleanup_shmem
      rw [if_pos hemp]
    · right
      unfold cleanup_shmem
      rw [if_neg hemp]
      rw [map_eq_self_of_id _ _ (fun r hr => by
        rw [if_neg (by simp; exact hnone r hr)])]
      rw [List.take_append_drop]

/-- Witness for C5: cleanup of pid 5 zeroes its record and, all owners being
gone, wipes the whole payload; cleanup for a pid owning nothing leaves the
full table unchanged. -/
theorem cleanup_shmem_spec_witness :
    recordAt (cleanup_shmem segOne 5) 0 = emptyRegion ∧
    cleanup_shmem segOne 5 = zeroShData 2 ∧
    (cleanup_shmem segFull 99 = zeroShData 2 ∨ cleanup_shmem segFull 99 = segFull) :=
  ⟨(cleanup_shmem_spec segOne 5 (by decide)).1 0 (by decide) (by decide),
   (cleanup_shmem_spec segOne 5 (by decide)).2.1 (by decide),
   (cleanup_shmem_spec segFull 99 (by decide)).2.2.2.1 (by decide)⟩

/-- C6 counterexample: explicit finalize does NOT wipe the table even when it
leaves no owned record anywhere.  In `stOneB` (one record owned by pid 5, two
local attachers) `finalize(5)` clears the only owned record — afterwards no
dense-prefix record has a positive owner — yet the payload is not zeroed: the
`initialized` flag is still set, `size` is still 1 and the stored capacity
still 2, contradicting the claim that the segment payload is left fully
zeroed. -/
theorem finalize_never_wipes_counterexample :
    ((shmem_talp__finalize stOneB 5).2.shdata.talp_region.take
        (shmem_talp__finalize stOneB 5).2.shdata.num_regions.toNat).all
      (fun r => decide (r.pid ≤ 0)) = true ∧
    (shmem_talp__finalize stOneB 5).2.shdata.initialized = true ∧
    (shmem_talp__finalize stOneB 5).2.shdata.num_regions = 1 ∧
    (shmem_talp__finalize stOneB 5).2.shdata.max_regions = 2 ∧
    (shmem_talp__finalize stOneB 5).2.shdata ≠ zeroShData 2 := by
  decide

/-- C6 amended: the wipe-to-zero of a table left without owned records happens
only in the crash-cleanup callback (`cleanup_shmem`, settled under C5).
Explicit `finalize(pid)` on an attached segment merely value-clears every
dense-prefix record owned by `pid`: it reports success, leaves `initialized`,
the stored capacity and `size` unchanged (no payload wipe, even when no owned
record remains), and then performs the `close`, decrementing the local attach
counter. -/
theorem finalize_clears_only (s : TalpState) (pid : Int)
    (hat : s.shm_handler = true) :
    (shmem_talp__finalize s pid).1 = DlbRet.Success ∧
    (shmem_talp__finalize s pid).2.shdata.initialized = s.shdata.initialized ∧
    (shmem_talp__finalize s pid).2.shdata.max_regions = s.shdata.max_regions ∧
    (shmem_talp__finalize s pid).2.shdata.num_regions = s.shdata.num_regions ∧
    (shmem_talp__finalize s pid).2.shdata.talp_region =
      (s.shdata.talp_region.take s.shdata.num_regions.toNat).map
        (fun r => if r.pid == pid then emptyRegion else r) ++
      s.shdata.talp_region.drop s.shdata.num_regions.toNat ∧
    (shmem_talp__finalize s pid).2.subprocesses_attached
      = s.subprocesses_attached - 1 := by
  simp only [shmem_talp__finalize, close_shmem, hat, Bool.not_true,
    Bool.false_eq_true, if_false]
  split <;> simp

/-- Witness for C6's amended theorem at the concrete one-record state. -/
theorem finalize_clears_only_witness :
    (shmem_talp__finalize stOneB 5).1 = DlbRet.Success ∧
    (shmem_talp__finalize stOneB 5).2.shdata.num_regions = 1 :=
  ⟨(finalize_clears_only stOneB 5 rfl).1,
   (finalize_clears_only stOneB 5 rfl).2.2.2.1⟩

theorem mem_matchingSnapshots (sd : ShData) (name : List Char)
    (e : TalpRegionList) :
    e ∈ matchingSnapshots sd name ↔
      ∃ i : Nat, i < sd.num_regions.toNat ∧ i < sd.talp_region.length ∧
        (recordAt sd i).pid ≠ 0 ∧
        (recordAt sd i).name.take (DLB_MONITOR_NAME_MAX - 1)
          = name.take (DLB_MONITOR_NAME_MAX - 1) ∧
        e = snapshotOf i (recordAt sd i) := by
  unfold matchingSnapshots
  rw [List.mem_filterMap]
  constructor
  · rintro ⟨⟨i, r⟩, hmem, hpred⟩
    rw [List.mem_enum_iff_getElem?] at hmem
    simp only at hmem
    rw [List.getElem?_take] at hmem
    by_cases hi : i < sd.num_regions.toNat
    · rw [if_pos hi] at hmem
      have hil : i < sd.talp_region.length := by
        by_contra hc
        rw [List.getElem?_eq_none (by omega)] at hmem
        exact Option.noConfusion hmem
      rw [List.getElem?_eq_getElem hil] at hmem
      have hr : r = sd.talp_region[i] := by
        injection hmem with h
        exact h.symm
      have hrec : recordAt sd i = r := by
        simp [recordAt, List.getD_eq_getElem?_getD,
          List.getElem?_eq_getElem hil, hr]
      by_cases hc : (r.pid != 0 &&
          (r.name.take (DLB_MONITOR_NAME_MAX - 1)
            == name.take (DLB_MONITOR_NAME_MAX - 1))) = true
      · rw [if_pos hc] at hpred
        injection hpred with h
        rw [Bool.and_eq_true, bne_iff_ne, beq_iff_eq] at hc
        exact ⟨i, hi, hil, hrec ▸ hc.1, hrec ▸ hc.2, hrec ▸ h.symm⟩
      · rw [if_neg hc] at hpred
        exact Option.noConfusion hpred
    · rw [if_neg hi] at hmem
      exact Option.noConfusion hmem
  · rintro ⟨i, hi, hil, hpid, hname, he⟩
    refine ⟨(i, recordAt sd i), ?_, ?_⟩
    · rw [List.mem_enum_iff_getElem?]
      simp only
      rw [List.getElem?_take, if_pos hi, List.getElem?_eq_getElem hil]
      simp [recordAt, List.getD_eq_getElem?_getD, List.getElem?_eq_getElem hil]
    · have hc : ((recordAt sd i).pid != 0 &&
          ((recordAt sd i).name.take (DLB_MONITOR_NAME_MAX - 1)
            == name.take (DLB_MONITOR_NAME_MAX - 1))) = true := by
        rw [Bool.and_eq_true, bne_iff_ne, beq_iff_eq]
        exact ⟨hpid, hname⟩
      rw [if_pos hc, he]

/-- C7: `get_regionlist(name)` on an attached segment succeeds; its result is
sorted by ascending pid (the `qsort` comparator `cmp_region_list`); it writes
at most `max_len` entries (`nelems`, the result length, reports the count);
every returned entry is a point-in-time snapshot `{pid, region_id, mpi_time,
useful_time, avg_cpus}` of a live (`owner_pid != 0`), name-matching record of
the dense prefix; whenever the buffer is large enough to hold every match, all
of them are returned; and concretely, after registering `(30,"X")`, `(10,"X")`,
`(20,"X")`, the returned pid order is `[10, 20, 30]`. -/
theorem get_regionlist_spec (s : TalpState) (max_len : Int) (name : List Char)
    (hat : s.shm_handler = true) :
    (shmem_talp__get_regionlist s max_len name).1 = DlbRet.Success ∧
    List.Sorted (fun a b => cmp_region_list a b ≤ 0)
      (shmem_talp__get_regionlist s max_len name).2 ∧
    (shmem_talp__get_regionlist s max_len name).2.length ≤ max_len.toNat ∧
    (∀ e ∈ (shmem_talp__get_regionlist s max_len name).2,
      ∃ i : Nat, i < s.shdata.num_regions.toNat ∧
        i < s.shdata.talp_region.length ∧
        (recordAt s.shdata i).pid ≠ 0 ∧
        (recordAt s.shdata i).name.take (DLB_MONITOR_NAME_MAX - 1)
          = name.take (DLB_MONITOR_NAME_MAX - 1) ∧
        e = snapshotOf i (recordAt s.shdata i)) ∧
    ((matchingSnapshots s.shdata name).length ≤ max_len.toNat →
      ∀ i : Nat, i < s.shdata.num_regions.toNat →
        i < s.shdata.talp_region.length →
        (recordAt s.shdata i).pid ≠ 0 →
        (recordAt s.shdata i).name.take (DLB_MONITOR_NAME_MAX - 1)
          = name.take (DLB_MONITOR_NAME_MAX - 1) →
        snapshotOf i (recordAt s.shdata i)
          ∈ (shmem_talp__get_regionlist s max_len name).2) ∧
    (shmem_talp__get_regionlist stXYZ 16 (['X'])).2.map
      (fun e => e.pid) = [10, 20, 30] := by
  have hres : (shmem_talp__get_regionlist s max_len name).2
      = sortRegionList (collectRegionList s.shdata max_len name) := by
    simp [shmem_talp__get_regionlist, hat]
  refine ⟨by simp [shmem_talp__get_regionlist, hat], ?_, ?_, ?_, ?_, by decide⟩
  · rw [hres]
    exact List.sorted_insertionSort _ _
  · rw [hres]
    unfold sortRegionList collectRegionList
    rw [List.length_insertionSort]
    exact List.length_take_le _ _
  · intro e he
    rw [hres] at he
    unfold sortRegionList at he
    rw [List.mem_insertionSort] at he
    unfold collectRegionList at he
    have := List.mem_of_mem_take he
    rw [mem_matchingSnapshots] at this
    exact this
  · intro hfit i hi hil hpid hname
    rw [hres]
    unfold sortRegionList
    rw [List.mem_insertionSort]
    unfold collectRegionList
    rw [List.take_of_length_le hfit]
    rw [mem_matchingSnapshots]
    exact ⟨i, hi, hil, hpid, hname, rfl⟩

/-- Witness for C7 at the concrete three-record table with a buffer of 16. -/
theorem get_regionlist_spec_witness :
    (shmem_talp__get_regionlist stXYZ 16 (['X'])).1 = DlbRet.Success ∧
    List.Sorted (fun a b => cmp_region_list a b ≤ 0)
      (shmem_talp__get_regionlist stXYZ 16 (['X'])).2 ∧
    (shmem_talp__get_regionlist stXYZ 16 (['X'])).2.map
      (fun e => e.pid) = [10, 20, 30] :=
  ⟨(get_regionlist_spec stXYZ 16 (['X']) rfl).1,
   (get_regionlist_spec stXYZ 16 (['X']) rfl).2.1,
   (get_regionlist_spec stXYZ 16 (['X']) rfl).2.2.2.2.2⟩

/-- C9: table-shape invariants.  Registration either leaves `size` unchanged
or — exactly when it succeeds below capacity — extends the dense prefix by one
slot, handing out the fresh id `size` (never a cleared interior slot's id);
hence `size ≤ capacity` is preserved.  A no-update hit returns the state
unchanged with an existing id inside the dense prefix.  `finalize` never
changes `size` (it only value-clears records), and crash cleanup either keeps
`size` or performs the full payload wipe that resets everything to zero. -/
theorem table_shape_invariants (s : TalpState) (pid a : Int) (name : List Char) :
    ((shmem_talp__register s pid a name).2.2.shdata.num_regions
        = s.shdata.num_regions ∨
     ((shmem_talp__register s pid a name).2.2.shdata.num_regions
        = s.shdata.num_regions + 1 ∧
      s.shdata.num_regions < s.max_regions ∧
      (shmem_talp__register s pid a name).1 = DlbRet.Success ∧
      (shmem_talp__register s pid a name).2.1 = some s.shdata.num_regions)) ∧
    (s.shdata.num_regions ≤ s.max_regions →
      (shmem_talp__register s pid a name).2.2.shdata.num_regions
        ≤ s.max_regions) ∧
    ((shmem_talp__register s pid a name).1 = DlbRet.NoUpdt →
      (shmem_talp__register s pid a name).2.2 = s ∧
      ∃ j : Nat, (j : Int) < s.shdata.num_regions ∧
        (shmem_talp__register s pid a name).2.1 = some (j : Int)) ∧
    ((shmem_talp__finalize s pid).2.shdata.num_regions
        = s.shdata.num_regions) ∧
    ((cleanup_shmem s.shdata pid).num_regions = s.shdata.num_regions ∨
     cleanup_shmem s.shdata pid = zeroShData s.shdata.talp_region.length) := by
  refine ⟨?_, ?_, ?_, ?_, ?_⟩
  · by_cases hat : s.shm_handler = true
    · rcases hfe : findRegion pid name
          (s.shdata.talp_region.take s.shdata.num_regions.toNat) 0 with _ | j
      · by_cases hlt : s.shdata.num_regions < s.max_regions
        · right
          refine ⟨?_, hlt, ?_, ?_⟩ <;> simp [shmem_talp__register, hat, hfe, hlt]
        · left
          simp [shmem_talp__register, hat, hfe, hlt]
      · left
        simp [shmem_talp__register, hat, hfe]
    · left
      simp only [Bool.not_eq_true] at hat
      simp [shmem_talp__register, hat]
  · intro hle
    by_cases hat : s.shm_handler = true
    · rcases hfe : findRegion pid name
          (s.shdata.talp_region.take s.shdata.num_regions.toNat) 0 with _ | j
      · by_cases hlt : s.shdata.num_regions < s.max_regions
        · simp only [shmem_talp__register, hat, Bool.not_true, Bool.false_eq_true,
            if_false, hfe, hlt, if_true]
          omega
        · simp [shmem_talp__register, hat, hfe, hlt, hle]
      · simp [shmem_talp__register, hat, hfe, hle]
    · simp only [Bool.not_eq_true] at hat
      simp [shmem_talp__register, hat, hle]
  · intro hnoupdt
    by_cases hat : s.shm_handler = true
    · rcases hfe : findRegion pid name
          (s.shdata.talp_region.take s.shdata.num_regions.toNat) 0 with _ | j
      · by_cases hlt : s.shdata.num_regions < s.max_regions
        · simp [shmem_talp__register, hat, hfe, hlt] at hnoupdt
        · simp [shmem_talp__register, hat, hfe, hlt] at hnoupdt
      · refine ⟨by simp [shmem_talp__register, hat, hfe], j, ?_,
          by simp [shmem_talp__register, hat, hfe]⟩
        have hj := findRegion_lt pid name _ 0 j hfe
        have hmin : (s.shdata.talp_region.take s.shdata.num_regions.toNat).length
            ≤ s.shdata.num_regions.toNat := by
          simp [List.length_take]
        omega
    · simp only [Bool.not_eq_true] at hat
      simp [shmem_talp__register, hat] at hnoupdt
  · by_cases hat : s.shm_handler = true
    · simp only [shmem_talp__finalize, close_shmem, hat, Bool.not_true,
        Bool.false_eq_true, if_false]
      split <;> simp
    · simp only [Bool.not_eq_true] at hat
      simp [shmem_talp__finalize, hat]
  · by_cases hemp : ((s.shdata.talp_region.take s.shdata.num_regions.toNat).all
        (fun r => r.pid == pid || decide (r.pid ≤ 0))) = true
    · right
      unfold cleanup_shmem
      rw [if_pos hemp]
    · left
      unfold cleanup_shmem
      rw [if_neg hemp]

/-- Witness for C9 at the one-record table: the registration hypotheses
discharged concretely. -/
theorem table_shape_invariants_witness :
    (shmem_talp__register stOne 7 0 (['Q'])).2.2.shdata.num_regions ≤ 2 ∧
    (shmem_talp__register stOne 5 0 (['R', '1'])).2.2 = stOne :=
  ⟨(table_shape_invariants stOne 7 0 (['Q'])).2.1 (by decide),
   ((table_shape_invariants stOne 5 0 (['R', '1'])).2.2.1 (by decide)).1⟩
